import Mathlib

/-!
Verification development for the telehealth call-negotiation core:
the WebRTC signalling hook, the call lifecycle controller hook, and the
signalling store schema.  Definitions are shallow embeddings of the
source modules; theorems settle the specified properties of the call
layer (signal de-duplication, the catch-up fetch path, teardown,
status-transition monotonicity, self-echo suppression and the store
CHECK constraint on signal types).
-/

set_option maxRecDepth 4000

namespace HealthCalls

/-! Section: Data model: store rows (schema of `call_sessions` / `call_signals`) -/

/-- One row of the `call_signals` table.  `created_at` is a logical
timestamp; `signal_data` is the opaque JSON payload, `none` standing for
an absent/empty payload. -/
structure SignalRow where
  id : String
  call_session_id : String
  from_user_id : String
  to_user_id : String
  signal_type : String
  signal_data : Option String
  created_at : Nat
deriving DecidableEq, Repr

/-- One row of the `call_sessions` table. -/
structure SessionRow where
  id : String
  conversation_id : Option String
  caller_id : String
  callee_id : String
  call_type : String
  status : String
  started_at : Option Nat
  ended_at : Option Nat
  created_at : Nat
deriving DecidableEq, Repr

/-- The CHECK constraint on `call_signals.signal_type` from the schema
migration: `CHECK (signal_type IN ('offer', 'answer', 'ice-candidate'))`. -/
def signalTypeOk (t : String) : Bool :=
  t = "offer" || t = "answer" || t = "ice-candidate"

/-- The CHECK constraint on `call_sessions.status`. -/
def sessionStatusOk (t : String) : Bool :=
  t = "ringing" || t = "active" || t = "ended" || t = "declined" || t = "missed"

/-- The backing store: both call tables plus the id/clock defaults
(`gen_random_uuid()` and `now()` are modelled by a counter and a logical
clock). -/
structure DB where
  call_sessions : List SessionRow
  call_signals : List SignalRow
  nextId : Nat
  clock : Nat
deriving DecidableEq, Repr

/-- Insert one signal row, enforcing the `signal_type` CHECK constraint.
On success the row is appended with a fresh id and the current clock. -/
def dbInsertSignal (db : DB) (sess fromU toU ty : String) (data : Option String) :
    Except String DB :=
  if signalTypeOk ty then
    Except.ok
      { db with
        call_signals := db.call_signals ++
          [⟨"sig" ++ toString db.nextId, sess, fromU, toU, ty, data, db.clock⟩],
        nextId := db.nextId + 1,
        clock := db.clock + 1 }
  else
    Except.error "new row violates check constraint call_signals_signal_type_check"

/-- A raw committed insert by the remote peer (already validated by the
store); used to model rows the other participant wrote. -/
def dbRawInsert (db : DB) (r : SignalRow) : DB :=
  { db with call_signals := db.call_signals ++ [r], clock := db.clock + 1 }

/-- `UPDATE call_sessions SET status = st, ended_at = e WHERE id = sid`. -/
def dbUpdateSessionEnd (db : DB) (sid st : String) (e : Nat) : DB :=
  { db with
    call_sessions := db.call_sessions.map fun r =>
      if r.id = sid then { r with status := st, ended_at := some e } else r }

/-! Section: Peer Connection Manager (`useWebRTC`) -/

/-- One local media track (`MediaStreamTrack`): kind, enabled flag, and
whether `stop()` has been called on it. -/
structure Track where
  kind : String
  enabled : Bool
  stopped : Bool
deriving DecidableEq, Repr

/-- The modelled `RTCPeerConnection`: local/remote descriptions, the
accumulated remote ICE candidates and the closed flag. -/
structure PeerConn where
  localDesc : Option String
  remoteDesc : Option String
  candidates : List String
  closed : Bool
deriving DecidableEq, Repr

/-- A freshly constructed `RTCPeerConnection`. -/
def newPeerConn : PeerConn := ⟨none, none, [], false⟩

/-- Abstraction of `pc.createOffer()`: an opaque SDP blob. -/
def createOffer (_pc : PeerConn) : String := "sdp-offer"

/-- Abstraction of `pc.createAnswer()`: an opaque SDP blob derived from
the remote description currently set on the connection. -/
def createAnswer (pc : PeerConn) : String :=
  "sdp-answer:" ++ pc.remoteDesc.getD ""

/-- A client-side signal send attempt (the argument of the
`call_signals` insert issued by `sendSignal`). -/
structure OutSignal where
  call_session_id : String
  from_user_id : String
  to_user_id : String
  signal_type : String
  signal_data : Option String
deriving DecidableEq, Repr

/-- The props of the `useWebRTC` hook that the logic depends on. -/
structure RTCCtx where
  callSessionId : String
  userId : String
  remoteUserId : String
  isInitiator : Bool
deriving DecidableEq, Repr

/-- The part of the hook state that the signal handlers touch: the
processed-signal id set (`processedSignalsRef`), the ordered log of send
attempts (`outbox`), the number of `onCallEnded` invocations and the
`console.error` log.  It mirrors the fact that these live in refs
separate from `peerConnectionRef` and `localStreamRef`. -/
structure HookCore where
  processedSignals : List String
  outbox : List OutSignal
  callEndedCount : Nat
  errorLog : List String
deriving DecidableEq, Repr

/-- The local state owned by one `useWebRTC` instance: the handler core
plus the two ownership references.  `releasedTracks` and `closedConns`
are ghost fields recording the browser objects after the hook dropped
its references to them (they keep the stopped/closed flags observable
after the refs are nulled). -/
structure RTCState where
  core : HookCore
  pc : Option PeerConn
  localStream : Option (List Track)
  releasedTracks : List Track
  closedConns : List PeerConn
deriving DecidableEq, Repr

/-- Hook state at mount time. -/
def initRTCState : RTCState := ⟨⟨[], [], 0, []⟩, none, none, [], []⟩

/-- `sendSignal(type, data)`: records the attempt and performs the
insert; an insert error is logged and swallowed. -/
def sendSignal (ctx : RTCCtx) (c : HookCore) (db : DB) (ty : String)
    (data : Option String) : HookCore × DB :=
  let c1 := { c with outbox := c.outbox ++
    [⟨ctx.callSessionId, ctx.userId, ctx.remoteUserId, ty, data⟩] }
  match dbInsertSignal db ctx.callSessionId ctx.userId ctx.remoteUserId ty data with
  | Except.ok db1 => (c1, db1)
  | Except.error e => ({ c1 with errorLog := c1.errorLog ++ [e] }, db)

/-- The realtime payload shape consumed by the handlers (interface
`SignalData`). -/
structure SignalMsg where
  signal_type : String
  signal_data : Option String
  from_user_id : String
deriving DecidableEq, Repr

/-- View a stored row as the delivered payload. -/
def SignalRow.msg (r : SignalRow) : SignalMsg :=
  ⟨r.signal_type, r.signal_data, r.from_user_id⟩

/-- Mark a signal id as processed, exactly as the handler does (`add`
after the `has` check; absent id leaves the set untouched). -/
def noteProcessed (c : HookCore) (signalId : Option String) : HookCore :=
  match signalId with
  | some i => if i ∈ c.processedSignals then c
              else { c with processedSignals := i :: c.processedSignals }
  | none => c

/-- Dispatch body of `handleSignalInternal` after the de-duplication
step: self-echo check, then per-type handling (`offer` sets the remote
description and answers, `answer` sets the remote description,
`ice-candidate` adds the candidate when the payload is non-empty,
`hangup` invokes `onCallEnded`; unknown types are ignored). -/
def handleSignalBody (ctx : RTCCtx) (c : HookCore) (db : DB) (pc : PeerConn)
    (sig : SignalMsg) : HookCore × DB × PeerConn :=
  if sig.from_user_id = ctx.userId then (c, db, pc)
  else if sig.signal_type = "offer" then
    let pc1 := { pc with remoteDesc := sig.signal_data }
    let ans := createAnswer pc1
    let pc2 := { pc1 with localDesc := some ans }
    let r := sendSignal ctx c db "answer" (some ans)
    (r.1, r.2, pc2)
  else if sig.signal_type = "answer" then
    (c, db, { pc with remoteDesc := sig.signal_data })
  else if sig.signal_type = "ice-candidate" then
    match sig.signal_data with
    | some cd => (c, db, { pc with candidates := pc.candidates ++ [cd] })
    | none => (c, db, pc)
  else if sig.signal_type = "hangup" then
    ({ c with callEndedCount := c.callEndedCount + 1 }, db, pc)
  else (c, db, pc)

/-- `handleSignalInternal(pc, signal, signalId?)`: skip if the id was
already processed, otherwise record the id and dispatch. -/
def handleSignalInternal (ctx : RTCCtx) (c : HookCore) (db : DB) (pc : PeerConn)
    (sig : SignalMsg) (signalId : Option String) : HookCore × DB × PeerConn :=
  match signalId with
  | some i =>
    if i ∈ c.processedSignals then (c, db, pc)
    else handleSignalBody ctx { c with processedSignals := i :: c.processedSignals } db pc sig
  | none => handleSignalBody ctx c db pc sig

/-- The public `handleSignal` used by the realtime subscription: a
delivery while the peer-connection reference is null is ignored. -/
def handleSignal (ctx : RTCCtx) (s : RTCState) (db : DB) (sig : SignalMsg)
    (signalId : Option String) : RTCState × DB :=
  match s.pc with
  | none => (s, db)
  | some pc =>
    let r := handleSignalInternal ctx s.core db pc sig signalId
    ({ s with core := r.1, pc := some r.2.2 }, r.2.1)

/-- `getUserMedia({video: videoEnabled, audio: true})`: the acquired
local tracks. -/
def acquireTracks (videoEnabled : Bool) : List Track :=
  (if videoEnabled then [⟨"video", true, false⟩] else []) ++ [⟨"audio", true, false⟩]

/-- The catch-up query of `startCall`: all signals of the session
addressed to `uid`, ordered by `created_at` ascending. -/
def fetchPending (db : DB) (sid uid : String) : List SignalRow :=
  List.insertionSort (fun a b => a.created_at ≤ b.created_at)
    (db.call_signals.filter fun r => r.call_session_id = sid && r.to_user_id = uid)

/-- Feed a list of fetched rows through the internal handler in order
(the receiver-side catch-up loop of `startCall`). -/
def processPending (ctx : RTCCtx) (c : HookCore) (db : DB) (pc : PeerConn) :
    List SignalRow → HookCore × DB × PeerConn
  | [] => (c, db, pc)
  | r :: rest =>
    let q := handleSignalInternal ctx c db pc r.msg (some r.id)
    processPending ctx q.1 q.2.1 q.2.2 rest

/-- `startCall(videoEnabled)`: acquire media, construct the connection
and add the tracks; the initiator creates and sends the offer, the
receiver performs the one-shot catch-up fetch and feeds every pending
signal through the internal handler. -/
def startCall (ctx : RTCCtx) (s : RTCState) (db : DB) (videoEnabled : Bool) :
    RTCState × DB :=
  let tracks := acquireTracks videoEnabled
  let s1 := { s with localStream := some tracks }
  let pc0 := newPeerConn
  if ctx.isInitiator then
    let offer := createOffer pc0
    let pc1 := { pc0 with localDesc := some offer }
    let r := sendSignal ctx s1.core db "offer" (some offer)
    ({ s1 with core := r.1, pc := some pc1 }, r.2)
  else
    let pending := fetchPending db ctx.callSessionId ctx.userId
    let r := processPending ctx s1.core db pc0 pending
    ({ s1 with core := r.1, pc := some r.2.2 }, r.2.1)

/-- The `onicecandidate` handler: a discovered candidate is sent
immediately; the end-of-candidates event (null candidate) sends
nothing. -/
def onIceCandidate (ctx : RTCCtx) (s : RTCState) (db : DB) (cand : Option String) :
    RTCState × DB :=
  match cand with
  | some cd =>
    let r := sendSignal ctx s.core db "ice-candidate" (some cd)
    ({ s with core := r.1 }, r.2)
  | none => (s, db)

/-- `endCall()`: send a hangup signal, stop every local track, close the
connection, null both ownership references, mark the session `ended`
with an end timestamp, and invoke `onCallEnded`. -/
def endCall (ctx : RTCCtx) (s : RTCState) (db : DB) (now : Nat) : RTCState × DB :=
  let r := sendSignal ctx s.core db "hangup" (some "\x7b\x7d")
  let stopped := (s.localStream.getD []).map fun t => { t with stopped := true }
  let closed := (s.pc.map fun pc => { pc with closed := true }).toList
  let s2 : RTCState :=
    { core := { r.1 with callEndedCount := r.1.callEndedCount + 1 },
      pc := none,
      localStream := none,
      releasedTracks := s.releasedTracks ++ stopped,
      closedConns := s.closedConns ++ closed }
  (s2, dbUpdateSessionEnd r.2 ctx.callSessionId "ended" now)

/-- The events a `useWebRTC` instance reacts to. -/
inductive RTCOp where
  | start (videoEnabled : Bool)
  | ice (cand : Option String)
  | deliver (sig : SignalMsg) (signalId : Option String)
  | extInsert (r : SignalRow)
  | finish (now : Nat)
deriving DecidableEq, Repr

/-- Apply one event. -/
def applyRTCOp (ctx : RTCCtx) (p : RTCState × DB) : RTCOp → RTCState × DB
  | RTCOp.start v => startCall ctx p.1 p.2 v
  | RTCOp.ice c => onIceCandidate ctx p.1 p.2 c
  | RTCOp.deliver sig i => handleSignal ctx p.1 p.2 sig i
  | RTCOp.extInsert r => (p.1, dbRawInsert p.2 r)
  | RTCOp.finish now => endCall ctx p.1 p.2 now

/-- Run a sequence of events. -/
def runRTC (ctx : RTCCtx) (p : RTCState × DB) : List RTCOp → RTCState × DB
  | [] => p
  | op :: rest => runRTC ctx (applyRTCOp ctx p op) rest

/-! Section: Call Lifecycle Controller (`useCallManager` plus the call modal glue) -/

/-- The `IncomingCall` projection held by the controller. -/
structure IncomingCall where
  id : String
  callerId : String
  callerName : String
  callerAvatar : Option String
  callType : String
deriving DecidableEq, Repr

/-- The `CallSession` projection (`activeCall`) held by the controller. -/
structure CallSessionView where
  id : String
  isInitiator : Bool
  remoteName : String
  remoteAvatar : Option String
deriving DecidableEq, Repr

/-- A toast notification. -/
structure Toast where
  variant : String
  title : String
  description : String
deriving DecidableEq, Repr

/-- Local state of the lifecycle controller.  `pcStarted` records
whether the call modal has invoked the Peer Connection Manager's
`startCall`; `errors` the `console.error` log. -/
structure CMState where
  incomingCall : Option IncomingCall
  activeCall : Option CallSessionView
  toasts : List Toast
  pcStarted : Bool
  errors : List String
deriving DecidableEq, Repr

/-- Controller state at mount time. -/
def initCMState : CMState := ⟨none, none, [], false, []⟩

/-- The toast emitted when call initiation fails. -/
def callFailedToast : Toast :=
  ⟨"destructive", "Call Failed", "Could not start the call. Please try again."⟩

/-- `initiateCall`: insert a `ringing` session; on success enter the
outgoing-call state, on store failure log, toast and return null.  The
store response is passed in explicitly (`insertResult`). -/
def initiateCall (user : Option String) (s : CMState)
    (calleeName : String) (calleeAvatar : Option String)
    (insertResult : Except String SessionRow) : Option String × CMState :=
  match user with
  | none => (none, s)
  | some _ =>
    match insertResult with
    | Except.error e =>
      (none, { s with
        errors := s.errors ++ [e],
        toasts := s.toasts ++ [callFailedToast] })
    | Except.ok data =>
      (some data.id,
       { s with activeCall := some ⟨data.id, true, calleeName, calleeAvatar⟩ })

/-- The session UPDATE handler of `useCallManager`: clear the incoming
projection on a matching terminal status; clear the active projection
only on `ended`. -/
def managerOnUpdate (s : CMState) (uid ustatus : String) : CMState :=
  let s1 :=
    if (match s.incomingCall with | some c => c.id = uid | none => false)
        && (ustatus = "ended" || ustatus = "declined" || ustatus = "missed") then
      { s with incomingCall := none }
    else s
  if (match s1.activeCall with | some a => a.id = uid | none => false)
      && ustatus = "ended" then
    { s1 with activeCall := none }
  else s1

/-- The initiator-side session UPDATE handler of the call modal:
`active` starts the Peer Connection Manager; a terminal status invokes
`onClose`, which is wired to the controller's `endCall` (clearing
`activeCall`). -/
def modalInitiatorOnUpdate (s : CMState) (ustatus : String) : CMState :=
  if ustatus = "active" then { s with pcStarted := true }
  else if ustatus = "ended" || ustatus = "declined" || ustatus = "missed" then
    { s with activeCall := none }
  else s

/-- Delivery of one session UPDATE event to the caller-side UI: the
controller's broad subscription always runs; the modal's per-session
subscription runs when the modal is mounted for that session as
initiator. -/
def deliverSessionUpdate (s : CMState) (uid ustatus : String) : CMState :=
  let modalMounted :=
    match s.activeCall with
    | some a => a.id = uid && a.isInitiator
    | none => false
  let s1 := managerOnUpdate s uid ustatus
  if modalMounted then modalInitiatorOnUpdate s1 ustatus else s1

/-! Section: The per-session status state machine (both sides of one call) -/

/-- The `call_sessions.status` enumeration. -/
inductive CallStatus where
  | ringing | active | ended | declined | missed
deriving DecidableEq, Repr

/-- The global view of one call session: its stored status, the
delivery flag of its INSERT event, the three UI projections that gate
the operations, and a ghost log of every status UPDATE write as a
(previous, written) pair.  Creation is not logged (it is an INSERT, not
a transition). -/
structure CallWorld where
  session : Option CallStatus
  insertDelivered : Bool
  callerActive : Bool
  calleeIncoming : Bool
  calleeActive : Bool
  writes : List (CallStatus × CallStatus)
deriving DecidableEq, Repr

/-- World before the call is placed. -/
def initWorld : CallWorld := ⟨none, false, false, false, false, []⟩

/-- The operations of the lifecycle controller and the peer-connection
manager, plus the store's event deliveries.  Guards mirror the early
returns in the source (`if (!incomingCall) return` etc.); an operation
whose guard fails is a no-op. -/
inductive CMOp where
  | initiate
  | deliverInsert
  | accept
  | decline
  | callerEnd
  | calleeEnd
  | deliverCaller
  | deliverCallee
deriving DecidableEq, Repr

/-- One step of the call state machine. -/
def stepWorld (w : CallWorld) : CMOp → CallWorld
  | CMOp.initiate =>
    match w.session with
    | none => { w with session := some CallStatus.ringing, callerActive := true }
    | some _ => w
  | CMOp.deliverInsert =>
    match w.session with
    | some _ =>
      if w.insertDelivered then w
      else { w with insertDelivered := true, calleeIncoming := true }
    | none => w
  | CMOp.accept =>
    if w.calleeIncoming then
      match w.session with
      | some st =>
        { w with session := some CallStatus.active,
                 calleeIncoming := false, calleeActive := true,
                 writes := w.writes ++ [(st, CallStatus.active)] }
      | none => w
    else w
  | CMOp.decline =>
    if w.calleeIncoming then
      match w.session with
      | some st =>
        { w with session := some CallStatus.declined,
                 calleeIncoming := false,
                 writes := w.writes ++ [(st, CallStatus.declined)] }
      | none => w
    else w
  | CMOp.callerEnd =>
    if w.callerActive then
      match w.session with
      | some st =>
        { w with session := some CallStatus.ended,
                 callerActive := false,
                 writes := w.writes ++ [(st, CallStatus.ended)] }
      | none => w
    else w
  | CMOp.calleeEnd =>
    if w.calleeActive then
      match w.session with
      | some st =>
        { w with session := some CallStatus.ended,
                 calleeActive := false,
                 writes := w.writes ++ [(st, CallStatus.ended)] }
      | none => w
    else w
  | CMOp.deliverCaller =>
    match w.session with
    | some st =>
      if st = CallStatus.ended ∨ st = CallStatus.declined ∨ st = CallStatus.missed then
        { w with callerActive := false }
      else w
    | none => w
  | CMOp.deliverCallee =>
    match w.session with
    | some st =>
      if st = CallStatus.ended ∨ st = CallStatus.declined ∨ st = CallStatus.missed then
        { w with calleeIncoming := false,
                 calleeActive := if st = CallStatus.ended then false else w.calleeActive }
      else w
    | none => w

/-- Run a list of call-lifecycle operations from the initial world. -/
def runWorld (ops : List CMOp) : CallWorld :=
  ops.foldl stepWorld initWorld

/-- The status edges listed by the specification. -/
def claimedEdges : List (CallStatus × CallStatus) :=
  [(CallStatus.ringing, CallStatus.active),
   (CallStatus.ringing, CallStatus.declined),
   (CallStatus.ringing, CallStatus.missed),
   (CallStatus.active, CallStatus.ended),
   (CallStatus.ringing, CallStatus.ended)]

/-- The edges actually reachable in the code: the claimed ones plus the
cross-side race edges (an operation firing before the concurrent
terminal write of the other side has been delivered). -/
def reachableEdges : List (CallStatus × CallStatus) :=
  claimedEdges ++
  [(CallStatus.ended, CallStatus.active),
   (CallStatus.ended, CallStatus.declined),
   (CallStatus.declined, CallStatus.ended),
   (CallStatus.ended, CallStatus.ended)]

/-! Section: Sample concrete inputs used by witnesses -/

/-- A receiver-side hook context. -/
def ctxCallee : RTCCtx := ⟨"sess1", "alice", "bob", false⟩

/-- An empty store. -/
def db0 : DB := ⟨[], [], 0, 0⟩

/-- An empty handler core. -/
def core0 : HookCore := ⟨[], [], 0, []⟩

/-! Section: Helper lemmas about the signal handlers -/

theorem handleSignalBody_processed (ctx : RTCCtx) (c : HookCore) (db : DB)
    (pc : PeerConn) (sig : SignalMsg) :
    (handleSignalBody ctx c db pc sig).1.processedSignals = c.processedSignals := by
  unfold handleSignalBody sendSignal
  repeat' split
  all_goals rfl

theorem mem_processed_handleSignalInternal (ctx : RTCCtx) (c : HookCore) (db : DB)
    (pc : PeerConn) (sig : SignalMsg) (i : String) :
    i ∈ (handleSignalInternal ctx c db pc sig (some i)).1.processedSignals := by
  by_cases hi : i ∈ c.processedSignals
  · simp [handleSignalInternal, hi]
  · simp [handleSignalInternal, hi, handleSignalBody_processed]

theorem handleSignalInternal_skip (ctx : RTCCtx) (c : HookCore) (db : DB)
    (pc : PeerConn) (sig : SignalMsg) (i : String)
    (h : i ∈ c.processedSignals) :
    handleSignalInternal ctx c db pc sig (some i) = (c, db, pc) := by
  simp [handleSignalInternal, h]

/-! Section: C1: processing a signal id twice equals processing it once -/

/-- C1.  For every hook context, handler state, store, connection and
signal carrying an id, running `handleSignalInternal` (the common path
of both the live subscription and the catch-up fetch) a second time on
the result of the first run changes nothing: the handler core, the
store (hence no additional outbound signal) and the peer connection are
exactly those after the first processing. -/
theorem signal_processing_idempotent (ctx : RTCCtx) (c : HookCore) (db : DB)
    (pc : PeerConn) (sig : SignalMsg) (i : String) :
    handleSignalInternal ctx
      (handleSignalInternal ctx c db pc sig (some i)).1
      (handleSignalInternal ctx c db pc sig (some i)).2.1
      (handleSignalInternal ctx c db pc sig (some i)).2.2
      sig (some i)
    = handleSignalInternal ctx c db pc sig (some i) := by
  rw [handleSignalInternal_skip _ _ _ _ _ _
    (mem_processed_handleSignalInternal ctx c db pc sig i)]

/-! Section: C8: self-echo suppression -/

/-- C8.  A delivered signal whose `from_user_id` equals the local user
id is never applied: the peer connection is untouched, nothing is sent
(the store is unchanged), `onCallEnded` is not invoked; the only effect
is the de-duplication bookkeeping performed before the self check. -/
theorem self_signal_not_applied (ctx : RTCCtx) (c : HookCore) (db : DB)
    (pc : PeerConn) (sig : SignalMsg) (signalId : Option String)
    (h : sig.from_user_id = ctx.userId) :
    handleSignalInternal ctx c db pc sig signalId = (noteProcessed c signalId, db, pc) := by
  cases signalId with
  | none => simp [handleSignalInternal, handleSignalBody, noteProcessed, h]
  | some i =>
    by_cases hi : i ∈ c.processedSignals <;>
      simp [handleSignalInternal, handleSignalBody, noteProcessed, h, hi]

/-- Witness for C8 at a concrete self-echoed offer. -/
theorem self_signal_not_applied_witness :
    (⟨"offer", some "x", "alice"⟩ : SignalMsg).from_user_id = ctxCallee.userId ∧
    handleSignalInternal ctxCallee core0 db0 newPeerConn ⟨"offer", some "x", "alice"⟩ (some "s1")
      = (noteProcessed core0 (some "s1"), db0, newPeerConn) :=
  ⟨rfl, self_signal_not_applied ctxCallee core0 db0 newPeerConn _ _ rfl⟩

/-! Section: C10: deliveries with a null connection reference are discarded -/

/-- C10.  A signal delivered through the public `handleSignal` entry
point while the peer-connection reference is null is discarded with no
state change at all — in particular its id is not added to the
processed-signal set, so a later redelivery of the same id is handled
exactly as if this delivery never happened. -/
theorem signal_ignored_without_pc (ctx : RTCCtx) (s : RTCState) (db : DB)
    (sig : SignalMsg) (signalId : Option String) (h : s.pc = none) :
    handleSignal ctx s db sig signalId = (s, db) := by
  simp [handleSignal, h]

/-- Witness for C10 at the freshly mounted hook state. -/
theorem signal_ignored_without_pc_witness :
    initRTCState.pc = none ∧
    handleSignal ctxCallee initRTCState db0 ⟨"offer", some "x", "bob"⟩ (some "s1")
      = (initRTCState, db0) :=
  ⟨rfl, signal_ignored_without_pc ctxCallee initRTCState db0 _ _ rfl⟩

/-! Section: C3: endCall teardown -/

/-- C3.  From any hook state whatever (ringing, active or failed),
`endCall` sends exactly one hangup signal, stops every local media
track, closes the connection, nulls both ownership references, updates
the session row to `ended` with an end timestamp and invokes
`onCallEnded`; afterwards there are zero live local tracks and the
connection reference is null. -/
theorem endCall_teardown (ctx : RTCCtx) (s : RTCState) (db : DB) (now : Nat) :
    (endCall ctx s db now).1.localStream = none ∧
    (endCall ctx s db now).1.pc = none ∧
    (endCall ctx s db now).1.core.outbox = s.core.outbox ++
      [⟨ctx.callSessionId, ctx.userId, ctx.remoteUserId, "hangup", some "\x7b\x7d"⟩] ∧
    (endCall ctx s db now).1.releasedTracks = s.releasedTracks ++
      ((s.localStream.getD []).map fun t => { t with stopped := true }) ∧
    (((s.localStream.getD []).map fun t => { t with stopped := true }).all
      fun t => t.stopped) = true ∧
    (endCall ctx s db now).1.closedConns = s.closedConns ++
      (s.pc.map fun pc => { pc with closed := true }).toList ∧
    ((s.pc.map fun pc => { pc with closed := true }).toList.all
      fun pc => pc.closed) = true ∧
    (endCall ctx s db now).1.core.callEndedCount = s.core.callEndedCount + 1 ∧
    (endCall ctx s db now).2.call_sessions = db.call_sessions.map fun rr =>
      if rr.id = ctx.callSessionId then { rr with status := "ended", ended_at := some now }
      else rr := by
  refine ⟨rfl, rfl, ?_, rfl, ?_, rfl, ?_, rfl, rfl⟩
  · simp [endCall, sendSignal, dbInsertSignal, signalTypeOk]
  · simp [List.all_map]
  · cases s.pc <;> simp

/-! Section: C9: the store rejects hangup signals, endCall still completes -/

/-- C9.  The schema CHECK constraint admits only `offer`, `answer` and
`ice-candidate`, so the hangup insert attempted by `endCall` is rejected
by the store: no row is appended, the failure is only logged, and
`endCall` nevertheless completes its teardown and the session-status
update to `ended`. -/
theorem hangup_insert_rejected (ctx : RTCCtx) (s : RTCState) (db : DB) (now : Nat) :
    signalTypeOk "hangup" = false ∧
    signalTypeOk "offer" = true ∧
    signalTypeOk "answer" = true ∧
    signalTypeOk "ice-candidate" = true ∧
    (endCall ctx s db now).2.call_signals = db.call_signals ∧
    (endCall ctx s db now).1.core.errorLog = s.core.errorLog ++
      ["new row violates check constraint call_signals_signal_type_check"] ∧
    (endCall ctx s db now).1.pc = none ∧
    (endCall ctx s db now).1.localStream = none ∧
    (endCall ctx s db now).2.call_sessions = db.call_sessions.map fun rr =>
      if rr.id = ctx.callSessionId then { rr with status := "ended", ended_at := some now }
      else rr := by
  refine ⟨rfl, rfl, rfl, rfl, ?_, ?_, rfl, rfl, rfl⟩ <;>
    simp [endCall, sendSignal, dbInsertSignal, signalTypeOk, dbUpdateSessionEnd]

/-! Section: C7: failed call initiation -/

/-- C7.  When the session insert fails at the store, `initiateCall`
returns null, surfaces the destructive `Call Failed` toast, and leaves
both local call projections exactly as they were, so no call UI state is
entered. -/
theorem initiateCall_store_failure (u : String) (s : CMState) (calleeName : String)
    (calleeAvatar : Option String) (e : String) :
    (initiateCall (some u) s calleeName calleeAvatar (Except.error e)).1 = none ∧
    (initiateCall (some u) s calleeName calleeAvatar (Except.error e)).2.activeCall
      = s.activeCall ∧
    (initiateCall (some u) s calleeName calleeAvatar (Except.error e)).2.incomingCall
      = s.incomingCall ∧
    (initiateCall (some u) s calleeName calleeAvatar (Except.error e)).2.toasts
      = s.toasts ++ [callFailedToast] :=
  ⟨rfl, rfl, rfl, rfl⟩

/-! Section: C5: terminal session updates clear the pre-call display -/

/-- A concrete incoming-call projection. -/
def sampleIncoming : IncomingCall := ⟨"sess1", "bob", "Bob", none, "video"⟩

/-- A concrete outgoing-call projection. -/
def sampleOutgoing : CallSessionView := ⟨"sess1", true, "Alice", none⟩

/-- C5.  A session update with status `ended`, `declined` or `missed`,
delivered while the UI still shows the incoming display (`incomingCall`
set) or the outgoing display (`activeCall` set as initiator) and the
peer connection was never started, clears both local call projections
and does not start the Peer Connection Manager. -/
theorem terminal_update_clears_display (s : CMState) (uid ustatus : String)
    (hpc : s.pcStarted = false)
    (hst : ustatus = "ended" ∨ ustatus = "declined" ∨ ustatus = "missed")
    (hdisp : (∃ c, s.incomingCall = some c ∧ c.id = uid ∧ s.activeCall = none) ∨
             (∃ a, s.activeCall = some a ∧ a.id = uid ∧ a.isInitiator = true ∧
               s.incomingCall = none)) :
    (deliverSessionUpdate s uid ustatus).incomingCall = none ∧
    (deliverSessionUpdate s uid ustatus).activeCall = none ∧
    (deliverSessionUpdate s uid ustatus).pcStarted = false := by
  rcases hdisp with ⟨c, hc, hcid, hact⟩ | ⟨a, ha, haid, hain, hinc⟩ <;>
    rcases hst with h | h | h <;> subst h <;>
      simp_all [deliverSessionUpdate, managerOnUpdate, modalInitiatorOnUpdate]

/-- Witness for C5: a decline delivered to the outgoing display. -/
theorem terminal_update_clears_display_witness :
    (⟨none, some sampleOutgoing, [], false, []⟩ : CMState).pcStarted = false ∧
    ("declined" = "ended" ∨ "declined" = "declined" ∨ "declined" = "missed") ∧
    (deliverSessionUpdate ⟨none, some sampleOutgoing, [], false, []⟩ "sess1" "declined").incomingCall = none ∧
    (deliverSessionUpdate ⟨none, some sampleOutgoing, [], false, []⟩ "sess1" "declined").activeCall = none ∧
    (deliverSessionUpdate ⟨none, some sampleOutgoing, [], false, []⟩ "sess1" "declined").pcStarted = false :=
  ⟨rfl, Or.inr (Or.inl rfl),
   terminal_update_clears_display _ "sess1" "declined" rfl (Or.inr (Or.inl rfl))
     (Or.inr ⟨sampleOutgoing, rfl, rfl, rfl, rfl⟩)⟩

/-! Section: C6: only the initiator ever sends an offer -/

/-- The signal types a non-initiator may emit. -/
def calleeSignalOk (e : OutSignal) : Bool :=
  e.signal_type = "answer" || e.signal_type = "ice-candidate" || e.signal_type = "hangup"

theorem sendSignal_all (ctx : RTCCtx) (c : HookCore) (db : DB) (ty : String)
    (d : Option String) (P : OutSignal → Bool)
    (hc : c.outbox.all P = true)
    (hty : P ⟨ctx.callSessionId, ctx.userId, ctx.remoteUserId, ty, d⟩ = true) :
    ((sendSignal ctx c db ty d).1.outbox.all P) = true := by
  unfold sendSignal
  split <;> simp_all

theorem body_calleeOk (ctx : RTCCtx) (c : HookCore) (db : DB) (pc : PeerConn)
    (sig : SignalMsg) (h : c.outbox.all calleeSignalOk = true) :
    ((handleSignalBody ctx c db pc sig).1.outbox.all calleeSignalOk) = true := by
  unfold handleSignalBody
  repeat' split
  case' isTrue => exact h
  all_goals first
    | exact h
    | exact sendSignal_all ctx c db "answer" _ calleeSignalOk h rfl

theorem internal_calleeOk (ctx : RTCCtx) (c : HookCore) (db : DB) (pc : PeerConn)
    (sig : SignalMsg) (signalId : Option String)
    (h : c.outbox.all calleeSignalOk = true) :
    ((handleSignalInternal ctx c db pc sig signalId).1.outbox.all calleeSignalOk) = true := by
  cases signalId with
  | none => exact body_calleeOk ctx c db pc sig h
  | some i =>
    by_cases hi : i ∈ c.processedSignals
    · simpa [handleSignalInternal, hi] using h
    · simp only [handleSignalInternal, if_neg hi]
      exact body_calleeOk ctx _ db pc sig h

theorem processPending_calleeOk (ctx : RTCCtx) (rows : List SignalRow) :
    ∀ (c : HookCore) (db : DB) (pc : PeerConn),
    c.outbox.all calleeSignalOk = true →
    ((processPending ctx c db pc rows).1.outbox.all calleeSignalOk) = true := by
  induction rows with
  | nil => intro c db pc h; exact h
  | cons r rest ih =>
    intro c db pc h
    exact ih _ _ _ (internal_calleeOk ctx c db pc r.msg (some r.id) h)

theorem applyRTCOp_calleeOk (ctx : RTCCtx) (hinit : ctx.isInitiator = false)
    (p : RTCState × DB) (op : RTCOp)
    (h : p.1.core.outbox.all calleeSignalOk = true) :
    ((applyRTCOp ctx p op).1.core.outbox.all calleeSignalOk) = true := by
  cases op with
  | start v =>
    simp only [applyRTCOp, startCall, hinit, if_false, Bool.false_eq_true]
    exact processPending_calleeOk ctx _ _ _ _ h
  | ice cand =>
    cases cand with
    | none => exact h
    | some cd =>
      simpa [applyRTCOp, onIceCandidate] using
        sendSignal_all ctx p.1.core p.2 "ice-candidate" (some cd) calleeSignalOk h rfl
  | deliver sig i =>
    simp only [applyRTCOp, handleSignal]
    cases hp : p.1.pc with
    | none => simpa [hp] using h
    | some pc =>
      simpa [hp] using internal_calleeOk ctx p.1.core p.2 pc sig i h
  | extInsert r => exact h
  | finish now =>
    simpa [applyRTCOp, endCall] using
      sendSignal_all ctx p.1.core p.2 "hangup" _ calleeSignalOk h rfl

theorem runRTC_calleeOk (ctx : RTCCtx) (hinit : ctx.isInitiator = false)
    (ops : List RTCOp) :
    ∀ (p : RTCState × DB), p.1.core.outbox.all calleeSignalOk = true →
    ((runRTC ctx p ops).1.core.outbox.all calleeSignalOk) = true := by
  induction ops with
  | nil => intro p h; exact h
  | cons op rest ih =>
    intro p h
    exact ih _ (applyRTCOp_calleeOk ctx hinit p op h)

theorem calleeOk_not_offer (l : List OutSignal) (h : l.all calleeSignalOk = true) :
    (l.all fun e => !(e.signal_type == "offer")) = true := by
  rw [List.all_eq_true] at h ⊢
  intro e he
  have h2 := h e he
  simp only [calleeSignalOk, Bool.or_eq_true, decide_eq_true_eq] at h2
  rcases h2 with (h2 | h2) | h2 <;> rw [h2] <;> rfl

/-- C6.  In every execution of a `useWebRTC` instance mounted as
non-initiator — any sequence of start, ICE, delivery, remote-insert and
end events — every signal the instance ever attempts to send is an
`answer`, an `ice-candidate` or a `hangup`; in particular the callee
never emits an `offer`. -/
theorem callee_never_sends_offer (ctx : RTCCtx) (hinit : ctx.isInitiator = false)
    (db : DB) (ops : List RTCOp) :
    ((runRTC ctx (initRTCState, db) ops).1.core.outbox.all calleeSignalOk) = true ∧
    ((runRTC ctx (initRTCState, db) ops).1.core.outbox.all
      fun e => !(e.signal_type == "offer")) = true := by
  have h := runRTC_calleeOk ctx hinit ops (initRTCState, db) rfl
  exact ⟨h, calleeOk_not_offer _ h⟩

/-- An offer row the caller inserted before the receiver started. -/
def offerRow : SignalRow := ⟨"r1", "sess1", "bob", "alice", "offer", some "sdp-o", 0⟩

/-- An ICE-candidate row the caller inserted before the receiver started. -/
def candRow : SignalRow := ⟨"r2", "sess1", "bob", "alice", "ice-candidate", some "cand1", 1⟩

/-- A concrete full receiver run: catch-up over a pre-filled store, a
local candidate, and the hangup. -/
def calleeRunOps : List RTCOp :=
  [RTCOp.extInsert offerRow, RTCOp.extInsert candRow, RTCOp.start true,
   RTCOp.ice (some "c0"), RTCOp.finish 5]

/-- Witness for C6 on the concrete receiver run. -/
theorem callee_never_sends_offer_witness :
    ctxCallee.isInitiator = false ∧
    (((runRTC ctxCallee (initRTCState, db0) calleeRunOps).1.core.outbox.all
        calleeSignalOk) = true ∧
     ((runRTC ctxCallee (initRTCState, db0) calleeRunOps).1.core.outbox.all
        fun e => !(e.signal_type == "offer")) = true) :=
  ⟨rfl, callee_never_sends_offer ctxCallee rfl db0 calleeRunOps⟩

/-! Section: C4: status-transition discipline of the lifecycle operations -/

/-- Inductive invariant of the call world: the status never reads
`missed` (no operation produces it), a callee showing the incoming
display can only be over a `ringing` session or one the caller already
ended, status changes before the INSERT delivery are confined to
caller-side ones, the callee flags imply the INSERT was delivered, and
every logged write lies in `reachableEdges`. -/
def WorldInv (w : CallWorld) : Prop :=
  w.session ≠ some CallStatus.missed ∧
  (w.calleeIncoming = true →
    w.session = some CallStatus.ringing ∨ w.session = some CallStatus.ended) ∧
  (w.insertDelivered = false →
    w.session = none ∨ w.session = some CallStatus.ringing ∨
      w.session = some CallStatus.ended) ∧
  (w.calleeActive = true → w.insertDelivered = true) ∧
  (w.calleeIncoming = true → w.insertDelivered = true) ∧
  (∀ p ∈ w.writes, p ∈ reachableEdges)

theorem writes_ok_append {w : List (CallStatus × CallStatus)}
    {x : CallStatus × CallStatus}
    (hW : ∀ p ∈ w, p ∈ reachableEdges) (hx : x ∈ reachableEdges) :
    ∀ p ∈ w ++ [x], p ∈ reachableEdges := by
  intro p hp
  rcases List.mem_append.mp hp with h | h
  · exact hW p h
  · rcases List.mem_singleton.mp h with rfl
    exact hx

theorem edge_to_active {st : CallStatus}
    (h : st = CallStatus.ringing ∨ st = CallStatus.ended) :
    (st, CallStatus.active) ∈ reachableEdges := by
  rcases h with rfl | rfl <;> decide

theorem edge_to_declined {st : CallStatus}
    (h : st = CallStatus.ringing ∨ st = CallStatus.ended) :
    (st, CallStatus.declined) ∈ reachableEdges := by
  rcases h with rfl | rfl <;> decide

theorem edge_to_ended {st : CallStatus} (h : st ≠ CallStatus.missed) :
    (st, CallStatus.ended) ∈ reachableEdges := by
  cases st <;> first | decide | exact absurd rfl h

theorem stepWorld_inv (w : CallWorld) (op : CMOp) (h : WorldInv w) :
    WorldInv (stepWorld w op) := by
  obtain ⟨hA, hB, hC, hD, hE, hW⟩ := h
  cases op with
  | initiate =>
    simp only [stepWorld]
    split
    next hs =>
      refine ⟨by simp, ?_, ?_, hD, hE, hW⟩
      · intro hi
        exact absurd (hB hi) (by simp [hs])
      · intro _
        exact Or.inr (Or.inl rfl)
    next => exact ⟨hA, hB, hC, hD, hE, hW⟩
  | deliverInsert =>
    simp only [stepWorld]
    split
    next st hs =>
      split
      next => exact ⟨hA, hB, hC, hD, hE, hW⟩
      next hd =>
        have hst := hC (by simpa using hd)
        rw [hs] at hst
        have hst2 : st = CallStatus.ringing ∨ st = CallStatus.ended := by
          rcases hst with h1 | h1 | h1
          · exact absurd h1 (by simp)
          · exact Or.inl (by injection h1)
          · exact Or.inr (by injection h1)
        refine ⟨by simpa [hs] using hA, ?_, by simp, fun _ => rfl, fun _ => rfl, hW⟩
        intro _
        rcases hst2 with rfl | rfl
        · exact Or.inl hs
        · exact Or.inr hs
    next => exact ⟨hA, hB, hC, hD, hE, hW⟩
  | accept =>
    simp only [stepWorld]
    split
    next hi =>
      split
      next st hs =>
        have hst : st = CallStatus.ringing ∨ st = CallStatus.ended := by
          have hx := hB hi
          rw [hs] at hx
          rcases hx with h1 | h1
          · exact Or.inl (by injection h1)
          · exact Or.inr (by injection h1)
        exact ⟨by simp, by simp,
          fun hx => absurd (hE hi) (by rw [Bool.not_eq_true]; exact hx),
          fun _ => hE hi, by simp,
          writes_ok_append hW (edge_to_active hst)⟩
      next => exact ⟨hA, hB, hC, hD, hE, hW⟩
    next => exact ⟨hA, hB, hC, hD, hE, hW⟩
  | decline =>
    simp only [stepWorld]
    split
    next hi =>
      split
      next st hs =>
        have hst : st = CallStatus.ringing ∨ st = CallStatus.ended := by
          have hx := hB hi
          rw [hs] at hx
          rcases hx with h1 | h1
          · exact Or.inl (by injection h1)
          · exact Or.inr (by injection h1)
        refine ⟨by simp, by simp, ?_, fun hx => hD hx, by simp,
          writes_ok_append hW (edge_to_declined hst)⟩
        intro hnd
        exact absurd (hE hi) (by simpa using hnd)
      next => exact ⟨hA, hB, hC, hD, hE, hW⟩
    next => exact ⟨hA, hB, hC, hD, hE, hW⟩
  | callerEnd =>
    simp only [stepWorld]
    split
    next =>
      split
      next st hs =>
        have hst : st ≠ CallStatus.missed := by
          intro hm
          exact hA (by rw [hs, hm])
        exact ⟨by simp, fun _ => Or.inr rfl, fun _ => Or.inr (Or.inr rfl),
          fun hx => hD hx, fun hi => hE hi,
          writes_ok_append hW (edge_to_ended hst)⟩
      next => exact ⟨hA, hB, hC, hD, hE, hW⟩
    next => exact ⟨hA, hB, hC, hD, hE, hW⟩
  | calleeEnd =>
    simp only [stepWorld]
    split
    next ha =>
      split
      next st hs =>
        have hst : st ≠ CallStatus.missed := by
          intro hm
          exact hA (by rw [hs, hm])
        exact ⟨by simp, fun _ => Or.inr rfl, fun _ => Or.inr (Or.inr rfl),
          fun _ => hD ha, fun hi => hE hi,
          writes_ok_append hW (edge_to_ended hst)⟩
      next => exact ⟨hA, hB, hC, hD, hE, hW⟩
    next => exact ⟨hA, hB, hC, hD, hE, hW⟩
  | deliverCaller =>
    simp only [stepWorld]
    split
    next st hs =>
      split
      next => exact ⟨by simpa [hs] using hA, by simpa [hs] using hB,
        by simpa [hs] using hC, hD, hE, hW⟩
      next => exact ⟨hA, hB, hC, hD, hE, hW⟩
    next => exact ⟨hA, hB, hC, hD, hE, hW⟩
  | deliverCallee =>
    simp only [stepWorld]
    split
    next st hs =>
      split
      next =>
        refine ⟨by simpa [hs] using hA, by simp, by simpa [hs] using hC,
          ?_, by simp, hW⟩
        split
        next => simp
        next => intro hx; exact hD hx
      next => exact ⟨hA, hB, hC, hD, hE, hW⟩
    next => exact ⟨hA, hB, hC, hD, hE, hW⟩

theorem runWorld_inv (ops : List CMOp) : WorldInv (runWorld ops) := by
  have h0 : WorldInv initWorld := by
    refine ⟨by simp [initWorld], by simp [initWorld], ?_, by simp [initWorld],
      by simp [initWorld], by simp [initWorld]⟩
    intro _
    exact Or.inl rfl
  have hfold : ∀ (l : List CMOp) (w : CallWorld), WorldInv w →
      WorldInv (l.foldl stepWorld w) := by
    intro l
    induction l with
    | nil => intro w hw; exact hw
    | cons op rest ih =>
      intro w hw
      exact ih _ (stepWorld_inv w op hw)
  exact hfold ops initWorld h0

/-- The interleaving in which the caller hangs up while the callee's
incoming display is still live, and the callee accepts before the
terminal update is delivered. -/
def raceTrace : List CMOp :=
  [CMOp.initiate, CMOp.deliverInsert, CMOp.callerEnd, CMOp.accept]

/-- Counterexample for C4 as stated: on `raceTrace` the session status
is written `active` over a session already `ended`, a transition outside
the claimed edge set (`ringing→active`, `ringing→declined`,
`ringing→missed`, `active→ended`, `ringing→ended`). -/
theorem status_claim_counterexample :
    (CallStatus.ended, CallStatus.active) ∈ (runWorld raceTrace).writes ∧
    (CallStatus.ended, CallStatus.active) ∉ claimedEdges := by
  decide

/-- C4 (amended).  For every sequence of lifecycle operations, every
status write moves along the claimed edges or one of the four race
edges in which one side acts before the other side's concurrent
terminal write was delivered (`ended→active`, `ended→declined`,
`declined→ended`, `ended→ended`); and no operation ever writes status
`ringing` — `ringing` appears only as the initial status at creation. -/
theorem status_writes_monotone (ops : List CMOp) (p : CallStatus × CallStatus)
    (hp : p ∈ (runWorld ops).writes) :
    p ∈ reachableEdges ∧ p.2 ≠ CallStatus.ringing := by
  have h := (runWorld_inv ops).2.2.2.2.2 p hp
  have hnr : ∀ q ∈ reachableEdges, q.2 ≠ CallStatus.ringing := by decide
  exact ⟨h, hnr p h⟩

/-- Witness for C4 on the concrete race trace. -/
theorem status_writes_monotone_witness :
    (CallStatus.ringing, CallStatus.ended) ∈ (runWorld raceTrace).writes ∧
    ((CallStatus.ringing, CallStatus.ended) ∈ reachableEdges ∧
     (CallStatus.ringing, CallStatus.ended).2 ≠ CallStatus.ringing) :=
  ⟨by decide, status_writes_monotone raceTrace _ (by decide)⟩

/-! Section: C2: the catch-up fetch path is equivalent to subscribing first -/

/-- Run of a receiver that starts late: the remote rows are already in
the store when `startCall` runs, so they are recovered by the catch-up
fetch. -/
def lateReceiverRun (ctx : RTCCtx) (dbBase : DB) (rows : List SignalRow) :
    RTCState × DB :=
  startCall ctx initRTCState (rows.foldl dbRawInsert dbBase) true

/-- Run of a receiver whose live subscription existed before any signal
was sent: `startCall` finds an empty store, and afterwards each row is
committed and delivered live through `handleSignal`. -/
def earlyReceiverRun (ctx : RTCCtx) (dbBase : DB) (rows : List SignalRow) :
    RTCState × DB :=
  rows.foldl
    (fun q r => handleSignal ctx q.1 (dbRawInsert q.2 r) r.msg (some r.id))
    (startCall ctx initRTCState dbBase true)

theorem foldl_dbRawInsert_signals (rows : List SignalRow) :
    ∀ db : DB, (rows.foldl dbRawInsert db).call_signals = db.call_signals ++ rows := by
  induction rows with
  | nil => intro db; simp
  | cons r rest ih =>
    intro db
    rw [List.foldl_cons, ih]
    simp [dbRawInsert]

theorem fetchPending_of_rows (db : DB) (sid uid : String) (rows : List SignalRow)
    (hsig : db.call_signals = rows)
    (hmatch : ∀ r ∈ rows, r.call_session_id = sid ∧ r.to_user_id = uid)
    (hsorted : List.Sorted (fun a b : SignalRow => a.created_at ≤ b.created_at) rows) :
    fetchPending db sid uid = rows := by
  unfold fetchPending
  rw [hsig]
  rw [List.filter_eq_self.mpr ?hf]
  · exact hsorted.insertionSort_eq
  case hf =>
    intro r hr
    obtain ⟨h1, h2⟩ := hmatch r hr
    simp [h1, h2]

theorem sendSignal_ok_core (ctx : RTCCtx) (c : HookCore) (db : DB) (ty : String)
    (d : Option String) (h : signalTypeOk ty = true) :
    (sendSignal ctx c db ty d).1 = { c with outbox := c.outbox ++
      [⟨ctx.callSessionId, ctx.userId, ctx.remoteUserId, ty, d⟩] } := by
  simp [sendSignal, dbInsertSignal, h]

theorem body_db_indep (ctx : RTCCtx) (c : HookCore) (pc : PeerConn) (sig : SignalMsg)
    (db db2 : DB) :
    (handleSignalBody ctx c db pc sig).1 = (handleSignalBody ctx c db2 pc sig).1 ∧
    (handleSignalBody ctx c db pc sig).2.2 = (handleSignalBody ctx c db2 pc sig).2.2 := by
  refine ⟨?_, ?_⟩ <;>
    (unfold handleSignalBody
     repeat' split
     all_goals rfl)

theorem internal_db_indep (ctx : RTCCtx) (c : HookCore) (pc : PeerConn)
    (sig : SignalMsg) (signalId : Option String) (db db2 : DB) :
    (handleSignalInternal ctx c db pc sig signalId).1 =
      (handleSignalInternal ctx c db2 pc sig signalId).1 ∧
    (handleSignalInternal ctx c db pc sig signalId).2.2 =
      (handleSignalInternal ctx c db2 pc sig signalId).2.2 := by
  cases signalId with
  | none => exact body_db_indep ctx c pc sig db db2
  | some i =>
    by_cases hi : i ∈ c.processedSignals
    · simp [handleSignalInternal, hi]
    · simp only [handleSignalInternal, if_neg hi]
      exact body_db_indep ctx _ pc sig db db2

theorem deliver_fold_eq_processPending (ctx : RTCCtx) (rows : List SignalRow) :
    ∀ (base : RTCState) (c : HookCore) (pc : PeerConn) (db dbE : DB),
    (rows.foldl
      (fun q r => handleSignal ctx q.1 (dbRawInsert q.2 r) r.msg (some r.id))
      ({ base with core := c, pc := some pc }, dbE)).1 =
    { base with core := (processPending ctx c db pc rows).1,
                pc := some (processPending ctx c db pc rows).2.2 } := by
  induction rows with
  | nil => intro base c pc db dbE; rfl
  | cons r rest ih =>
    intro base c pc db dbE
    have hstep : handleSignal ctx { base with core := c, pc := some pc }
        (dbRawInsert dbE r) r.msg (some r.id) =
        ({ base with
            core := (handleSignalInternal ctx c (dbRawInsert dbE r) pc r.msg (some r.id)).1,
            pc := some (handleSignalInternal ctx c (dbRawInsert dbE r) pc r.msg (some r.id)).2.2 },
         (handleSignalInternal ctx c (dbRawInsert dbE r) pc r.msg (some r.id)).2.1) := rfl
    obtain ⟨h1, h2⟩ :=
      internal_db_indep ctx c pc r.msg (some r.id) (dbRawInsert dbE r) db
    rw [List.foldl_cons, hstep,
      ih base _ _ (handleSignalInternal ctx c db pc r.msg (some r.id)).2.1 _, h1, h2]
    simp only [processPending]

/-- C2.  A receiver that invokes `startCall` only after the initiator's
offer and candidate rows were inserted recovers them through the
catch-up fetch (session- and recipient-filtered, ordered by `created_at`
ascending) and ends in exactly the local hook state of the run in which
its live subscription was established before any signal was sent and
delivered every row live. -/
theorem late_receiver_equivalent (ctx : RTCCtx) (dbBase : DB) (rows : List SignalRow)
    (hinit : ctx.isInitiator = false)
    (hbase : dbBase.call_signals = [])
    (hmatch : ∀ r ∈ rows, r.call_session_id = ctx.callSessionId ∧
      r.to_user_id = ctx.userId)
    (hsorted : List.Sorted (fun a b : SignalRow => a.created_at ≤ b.created_at) rows) :
    (lateReceiverRun ctx dbBase rows).1 = (earlyReceiverRun ctx dbBase rows).1 := by
  have hfetchLate : fetchPending (rows.foldl dbRawInsert dbBase)
      ctx.callSessionId ctx.userId = rows := by
    refine fetchPending_of_rows _ _ _ rows ?_ hmatch hsorted
    rw [foldl_dbRawInsert_signals, hbase]
    rfl
  have hfetchEarly : fetchPending dbBase ctx.callSessionId ctx.userId = [] := by
    unfold fetchPending
    rw [hbase]
    rfl
  unfold lateReceiverRun earlyReceiverRun
  simp only [startCall, hinit, Bool.false_eq_true, if_false, hfetchLate, hfetchEarly,
    processPending]
  exact (deliver_fold_eq_processPending ctx rows
    { initRTCState with localStream := some (acquireTracks true) }
    initRTCState.core newPeerConn (rows.foldl dbRawInsert dbBase) dbBase).symm

/-- Witness for C2 on a concrete pre-inserted offer and candidate. -/
theorem late_receiver_equivalent_witness :
    ctxCallee.isInitiator = false ∧
    db0.call_signals = [] ∧
    (∀ r ∈ [offerRow, candRow], r.call_session_id = ctxCallee.callSessionId ∧
      r.to_user_id = ctxCallee.userId) ∧
    List.Sorted (fun a b : SignalRow => a.created_at ≤ b.created_at) [offerRow, candRow] ∧
    (lateReceiverRun ctxCallee db0 [offerRow, candRow]).1 =
      (earlyReceiverRun ctxCallee db0 [offerRow, candRow]).1 :=
  ⟨rfl, rfl, by decide, by decide,
   late_receiver_equivalent ctxCallee db0 [offerRow, candRow] rfl rfl
     (by decide) (by decide)⟩

end HealthCalls
